import Mathlib

/-!
Verification of the powers-of-tau ceremony core (`small-powers-of-tau`).

The BLS12-381 groups G1 and G2 used by the library are cyclic of prime order
`r`.  We embed them by their discrete logarithms with respect to the canonical
generators: a point `a · g1` is represented by the scalar `a : ZMod r`.  Point
equality coincides with equality of discrete logarithms, scalar multiplication
becomes multiplication in `ZMod r`, the identity element is `0`, and the
pairing `e(a·g1, b·g2) = e(g1,g2)^(a·b)` is represented by its exponent
`a * b : ZMod r` (the target group is likewise cyclic of order `r`, so pairing
equality is equality of exponents).
-/

namespace PowersOfTau

/-- Order of the BLS12-381 prime-order subgroups (the scalar field `Fr`). -/
def r : ℕ := 52435875175126190479447740508185965837690552500527637822603658699938581184513

/-- The scalar field `Fr` of BLS12-381. -/
abbrev Fr := ZMod r

/-- G1 in discrete-log representation with respect to the canonical generator. -/
abbrev G1 := ZMod r

/-- G2 in discrete-log representation with respect to the canonical generator. -/
abbrev G2 := ZMod r

instance : NeZero r := ⟨by decide⟩

/-- The canonical generator of G1 (`G1Projective::prime_subgroup_generator()`),
discrete log `1`. -/
def g1 : G1 := 1

/-- The canonical generator of G2 (`G2Projective::prime_subgroup_generator()`),
discrete log `1`. -/
def g2 : G2 := 1

/-- `Bls12_381::pairing`, represented by the exponent of `e(g1,g2)`:
`e(a·g1, b·g2) = e(g1,g2)^(a*b)`. -/
def pairing (a : G1) (b : G2) : Fr := a * b

/-- Scalar multiplication of a group element (`wnaf.mul` / `mul` in arkworks). -/
def smul (s : Fr) (p : ZMod r) : ZMod r := s * p

/-- `UpdateProof` as used by `srs.rs` and `serialisation.rs`.
Modelled from the spec: the two-field update proof `(P, Q)` of §3/§4.4 — the
declaration compiled against by `srs.rs` is not among the sources (the
`update_proof.rs` present is an older three-field bn254 variant). `P` is the
commitment to the secret (`τ·g2`) and `Q` the new accumulated degree-1 point. -/
structure UpdateProof where
  commitment_to_secret : G2
  new_accumulated_point : G1
  deriving DecidableEq

/-- `SharedSecretChain` from `shared_secret.rs`. -/
structure SharedSecretChain where
  accumulated_points : List G1
  witnesses : List G2

/-- `SharedSecretChain::starting_from`. -/
def SharedSecretChain.starting_from (starting_point : G1) : SharedSecretChain :=
  { accumulated_points := [starting_point], witnesses := [] }

/-- `SharedSecretChain::extend`. -/
def SharedSecretChain.extend (c : SharedSecretChain)
    (new_accumulated_point : G1) (witness : G2) : SharedSecretChain :=
  { accumulated_points := c.accumulated_points ++ [new_accumulated_point]
    witnesses := c.witnesses ++ [witness] }

/-- Overlapping windows of size two (`slice::windows(2)`), as pairs. -/
def windowsTwo {α : Type} : List α → List (α × α)
  | a :: b :: rest => (a, b) :: windowsTwo (b :: rest)
  | _ => []

/-- `SharedSecretChain::verify`: every consecutive pair of accumulated points
`(prev, next)` with witness `w` must satisfy
`pairing(next, g2) == pairing(prev, w)`. -/
def SharedSecretChain.verify (c : SharedSecretChain) : Bool :=
  ((windowsTwo c.accumulated_points).zip c.witnesses).all
    (fun x => decide (pairing x.1.2 g2 = pairing x.1.1 x.2))

/-- `UpdateProof::verify_chain(starting_point, update_proofs)`.
Modelled from the spec (§4.4): the two-argument chain verifier called by
`srs.rs` is not among the sources (only the older one-argument variant is).
It builds a `SharedSecretChain` from `starting_point`, extends it with
`(Qₖ, Pₖ)` for each proof, and returns the chain's verify result.  The spec's
empty-list precondition violation is unreachable from `verify_updates`; on an
empty list the chain below verifies trivially. -/
def UpdateProof.verify_chain (starting_point : G1) (update_proofs : List UpdateProof) : Bool :=
  (update_proofs.foldl
    (fun c proof => c.extend proof.new_accumulated_point proof.commitment_to_secret)
    (SharedSecretChain.starting_from starting_point)).verify

/-- `Parameters` from `srs.rs`. -/
structure Parameters where
  num_g1_elements_needed : ℕ
  num_g2_elements_needed : ℕ
  deriving DecidableEq

/-- The `SRS` struct: the two vectors of powers of tau. -/
@[ext]
structure SRS where
  tau_g1 : List G1
  tau_g2 : List G2
  deriving DecidableEq

/-- `vandemonde_challenge(x, n)`: the vector `[x, x², …, xⁿ]`.
The source builds it by pushing `x` and then `challenges[i] * x` for
`i ∈ [0, n-1)`; it is only called with `n ≥ 1` (for `n = 0` the source's
`0..n-1` range underflows, which is unreachable since SRS vectors have at
least two elements). -/
def vandemonde_challenge (x : Fr) : ℕ → List Fr
  | 0 => []
  | n + 1 => x :: (vandemonde_challenge x n).map (· * x)

/-- `SRS::from_vectors`: requires strictly more than one element per group. -/
def SRS.from_vectors (g1s : List G1) (g2s : List G2) : Option SRS :=
  let cond := g1s.length > 1 && g2s.length > 1
  if !cond then none else some { tau_g1 := g1s, tau_g2 := g2s }

/-- `SRS::new`: generator-filled vectors of the requested sizes. -/
def SRS.new (parameters : Parameters) : Option SRS :=
  SRS.from_vectors (List.replicate parameters.num_g1_elements_needed g1)
    (List.replicate parameters.num_g2_elements_needed g2)

/-- `SRS::update_srs`: multiply `tau_g1[i]` (resp. `tau_g2[j]`) by the `i`-th
(resp. `j`-th) entry of the Vandermonde vector of the private key, skipping the
degree-0 element. -/
def SRS.update_srs (s : SRS) (private_key : Fr) : SRS :=
  let max_number_elements := max s.tau_g1.length s.tau_g2.length
  let powers_of_priv_key := vandemonde_challenge private_key (max_number_elements - 1)
  { tau_g1 :=
      match s.tau_g1 with
      | [] => []
      | h :: t => h :: List.zipWith (fun g pw => smul pw g) t powers_of_priv_key
    tau_g2 :=
      match s.tau_g2 with
      | [] => []
      | h :: t => h :: List.zipWith (fun g pw => smul pw g) t powers_of_priv_key }

/-- `SRS::update`: update the vectors, then emit the proof
`(P, Q) = (τ·g2, updated tau_g1[1])`.  (`PrivateKey::to_public` is `g2 · τ`.) -/
def SRS.update (s : SRS) (private_key : Fr) : SRS × UpdateProof :=
  let s' := s.update_srs private_key
  (s', { commitment_to_secret := smul private_key g2
         new_accumulated_point := s'.tau_g1.getD 1 0 })

/-- A finite sequence of `SRS::update` calls, one per contributor, keeping the
final SRS. -/
def SRS.applyUpdates (s : SRS) (keys : List Fr) : SRS :=
  keys.foldl (fun acc k => (acc.update k).1) s

/-- `VariableBaseMSM::multi_scalar_mul(bases, scalars)`: `Σ scalarsᵢ · basesᵢ`
over the common length of the two slices. -/
def multi_scalar_mul (bases : List (ZMod r)) (scalars : List Fr) : ZMod r :=
  (List.zipWith (fun b s => smul s b) bases scalars).sum

/-- `SRS::structure_check_opt`: the batched single-pairing structure check with
random challenge, per `srs.rs` lines 218–288. -/
def SRS.structure_check_opt (s : SRS) (random_element : Fr) : Bool :=
  if random_element = 0 then false
  else
    let len_g1 := s.tau_g1.length
    let len_g2 := s.tau_g2.length
    let max_number_elements := max len_g1 len_g2
    let rand_pow := vandemonde_challenge random_element (max_number_elements - 1)
    let tau_g2_0 := s.tau_g2.getD 0 0
    let tau_g2_1 := s.tau_g2.getD 1 0
    let tau_g1_0 := s.tau_g1.getD 0 0
    let tau_g1_1 := s.tau_g1.getD 1 0
    -- G1 row: L = tau_g1[0 .. len-1], R = tau_g1[1 ..]
    let L1 := s.tau_g1.take (len_g1 - 1)
    let R1 := s.tau_g1.drop 1
    let L_comm1 := multi_scalar_mul L1 rand_pow
    let R_comm1 := multi_scalar_mul R1 rand_pow
    if pairing L_comm1 tau_g2_1 ≠ pairing R_comm1 tau_g2_0 then false
    else
      -- G2 row: L = tau_g2[0 .. len-1], R = tau_g2[1 ..]
      let L2 := s.tau_g2.take (len_g2 - 1)
      let R2 := s.tau_g2.drop 1
      let L_comm2 := multi_scalar_mul L2 rand_pow
      let R_comm2 := multi_scalar_mul R2 rand_pow
      decide (pairing tau_g1_1 L_comm2 = pairing tau_g1_0 R_comm2)

/-- `SRS::structure_check`: the pairwise per-index structure check, per
`srs.rs` lines 292–324. -/
def SRS.structure_check (s : SRS) : Bool :=
  let tau_g2_0 := s.tau_g2.getD 0 0
  let tau_g2_1 := s.tau_g2.getD 1 0
  let tau_g1_0 := s.tau_g1.getD 0 0
  let tau_g1_1 := s.tau_g1.getD 1 0
  (windowsTwo s.tau_g1).all
    (fun pair => decide (pairing pair.2 tau_g2_0 = pairing pair.1 tau_g2_1)) &&
  (windowsTwo s.tau_g2).all
    (fun pair => decide (pairing tau_g1_0 pair.2 = pairing tau_g1_1 pair.1))

/-- `SRS::verify_updates`, per `srs.rs` lines 135–179. -/
def SRS.verify_updates (before after : SRS) (update_proofs : List UpdateProof)
    (random_element : Fr) : Bool :=
  match update_proofs.getLast? with
  | none => false
  | some last_update =>
    if after.tau_g1.getD 1 0 ≠ last_update.new_accumulated_point then false
    else if !UpdateProof.verify_chain (before.tau_g1.getD 1 0) update_proofs then false
    else if after.tau_g1.getD 1 0 = 0 then false
    else if after.tau_g2.getD 1 0 = 0 then false
    else SRS.structure_check_opt after random_element

/-- `SRS::verify_update`: single-proof wrapper over `verify_updates`. -/
def SRS.verify_update (before after : SRS) (update_proof : UpdateProof)
    (random_element : Fr) : Bool :=
  SRS.verify_updates before after [update_proof] random_element

/-! ## Hex strings

Strings are modelled as lists of characters.  `hexCharVal` accepts the digits
accepted by the `hex` crate (both cases); point encoding emits lowercase. -/

/-- Value of one hex digit character, or `none` (as in `hex::decode`). -/
def hexCharVal (c : Char) : Option ℕ :=
  if 48 ≤ c.toNat ∧ c.toNat ≤ 57 then some (c.toNat - 48)
  else if 97 ≤ c.toNat ∧ c.toNat ≤ 102 then some (c.toNat - 87)
  else if 65 ≤ c.toNat ∧ c.toNat ≤ 70 then some (c.toNat - 55)
  else none

/-- Lowercase hex digit character for a value below 16. -/
def hexDigitChar (d : ℕ) : Char :=
  if d < 10 then Char.ofNat (48 + d) else Char.ofNat (87 + d)

/-- Big-endian fixed-width hex rendering of a natural number (`hex::encode`
of the big-endian bytes, abstracted to digits). -/
def toHexPad : ℕ → ℕ → List Char
  | 0, _ => []
  | k + 1, v => toHexPad k (v / 16) ++ [hexDigitChar (v % 16)]

/-- Big-endian numeric value of a hex digit string, failing on any non-hex
character. -/
def hexValAux : ℕ → List Char → Option ℕ
  | acc, [] => some acc
  | acc, c :: rest =>
    match hexCharVal c with
    | none => none
    | some d => hexValAux (16 * acc + d) rest

/-- Big-endian numeric value of a hex digit string. -/
def hexVal (s : List Char) : Option ℕ := hexValAux 0 s

/-- `hex::decode`: pairs of hex digits to bytes; fails on odd length or on a
non-hex character. -/
def hexDecodeBytes : List Char → Option (List ℕ)
  | [] => some []
  | [_] => none
  | a :: b :: rest =>
    match hexCharVal a, hexCharVal b with
    | some da, some db =>
      match hexDecodeBytes rest with
      | some bs => some ((16 * da + db) :: bs)
      | none => none
    | _, _ => none

/-- Big-endian value of a byte string. -/
def beBytesVal (bytes : List ℕ) : ℕ := bytes.foldl (fun acc b => 256 * acc + b) 0

/-- `Fr::from_be_bytes_mod_order` (`PrivateKey::from_bytes`): interpret the
bytes big-endian and reduce modulo `r`. -/
def from_be_bytes_mod_order (bytes : List ℕ) : Fr := (beBytesVal bytes : Fr)

/-! ## Point codec for the hex-array serialisation

Modelled from the spec: the `Option`-returning compressed codec that
`serialisation.rs` compiles against is not among the sources (the
`interop_point_encoding.rs` present is an older panicking variant, embedded
separately below).  Per §4.1/§6 the compressed encoding is a 48-byte
(resp. 96-byte) code on which serialisation never fails and decoding is the
partial inverse, failing on anything outside the code's range.  The byte
layout itself depends on base-field coordinates that the discrete-log group
representation does not carry, so the code is abstracted to an injective
96-hex-digit (resp. 192-hex-digit) numeral with its explicit partial
inverse. -/

/-- Modelled from the spec: compressed G1 encoding as 96 lowercase hex
digits; see the `Point codec` section comment. -/
def serialize_g1_hex (p : G1) : List Char := toHexPad 96 p.val

/-- Modelled from the spec: compressed G1 decoding, the partial inverse of
`serialize_g1_hex`. -/
def deserialize_g1_hex (s : List Char) : Option G1 :=
  if s.length = 96 then
    match hexVal s with
    | some v => if v < r then some (v : G1) else none
    | none => none
  else none

/-- Modelled from the spec: compressed G2 encoding as 192 lowercase hex
digits; see the `Point codec` section comment. -/
def serialize_g2_hex (p : G2) : List Char := toHexPad 192 p.val

/-- Modelled from the spec: compressed G2 decoding, the partial inverse of
`serialize_g2_hex`. -/
def deserialize_g2_hex (s : List Char) : Option G2 :=
  if s.length = 192 then
    match hexVal s with
    | some v => if v < r then some (v : G2) else none
    | none => none
  else none

/-- `hex_string_to_g1` from `serialisation.rs`: require the `0x` prefix,
hex-decode, check the byte length, decode the point. -/
def hex_string_to_g1 (hex_str : List Char) : Option G1 :=
  match hex_str with
  | '0' :: 'x' :: stripped => deserialize_g1_hex stripped
  | _ => none

/-- `hex_string_to_g2` from `serialisation.rs`. -/
def hex_string_to_g2 (hex_str : List Char) : Option G2 :=
  match hex_str with
  | '0' :: 'x' :: stripped => deserialize_g2_hex stripped
  | _ => none

/-- Prefix a hex rendering with `0x` (`point_as_hex.insert_str(0, "0x")`). -/
def withPrefix0x (s : List Char) : List Char := '0' :: 'x' :: s

/-- `SRS::to_json_array` (= `SRS::serialise`): the two arrays of
`0x`-prefixed hex strings. -/
def SRS.to_json_array (s : SRS) : List (List Char) × List (List Char) :=
  (s.tau_g1.map (fun p => withPrefix0x (serialize_g1_hex p)),
   s.tau_g2.map (fun p => withPrefix0x (serialize_g2_hex p)))

/-- `SRS::serialise`. -/
def SRS.serialise (s : SRS) : List (List Char) × List (List Char) :=
  s.to_json_array

/-- The `for .. { v.push(decode(..)?) }` loops of `from_json_array`: decode
every string in order, short-circuiting to `none`. -/
def decodePoints {α : Type} (decode : List Char → Option α) : List (List Char) → Option (List α)
  | [] => some []
  | s :: rest =>
    match decode s with
    | none => none
    | some p =>
      match decodePoints decode rest with
      | none => none
      | some ps => some (p :: ps)

/-- `SRS::from_json_array`: decode every string, then check that the counts
equal the parameters; builds the struct directly (no `from_vectors` length
check). -/
def SRS.from_json_array (json_array : List (List Char) × List (List Char))
    (parameters : Parameters) : Option SRS :=
  match decodePoints hex_string_to_g1 json_array.1 with
  | none => none
  | some tg1 =>
    match decodePoints hex_string_to_g2 json_array.2 with
    | none => none
    | some tg2 =>
      if tg1.length ≠ parameters.num_g1_elements_needed then none
      else if tg2.length ≠ parameters.num_g2_elements_needed then none
      else some { tau_g1 := tg1, tau_g2 := tg2 }

/-- `SRS::deserialise`. -/
def SRS.deserialise (json_arr : List (List Char) × List (List Char))
    (parameters : Parameters) : Option SRS :=
  SRS.from_json_array json_arr parameters

/-! ## The byte-level G1 decoder of `interop_point_encoding.rs`

This is the variant actually present in the sources: it returns a bare
`G1Affine` and aborts (`unwrap` / `unimplemented!`) on malformed input.
It works on genuine base-field coordinates, so here the base field
`Fq = ZMod p` and the curve equation `y² = x³ + 4` appear explicitly. -/

/-- The BLS12-381 base-field modulus `p`. -/
def fqModulus : ℕ := 4002409555221667393417789825735904156556882819939007885332058136124031650490837864442687629129015664037894272559787

/-- The base field `Fq` of BLS12-381. -/
abbrev Fq := ZMod fqModulus

/-- Result of a decoding function that can abort the process: `ok` is a normal
return, `crashed` is a `panic`/`unwrap`-failure/`unimplemented!` abort. -/
inductive DecodeResult (α : Type) where
  | ok (value : α) : DecodeResult α
  | crashed : DecodeResult α
  deriving DecidableEq

/-- An affine G1 point as decoded: `none` is the point at infinity
(`G1Affine::default()`), `some (x, y)` a finite point. -/
abbrev G1AffinePoint := Option (Fq × Fq)

/-- `EncodingFlags::get_flags`: bits 7, 6, 5 of the first byte. -/
structure EncodingFlags where
  is_compressed : Bool
  is_infinity : Bool
  is_lexographically_largest : Bool

/-- `EncodingFlags::get_flags` over the leading byte of the input. -/
def getFlags (bytes : List ℕ) : EncodingFlags :=
  let b0 := bytes.getD 0 0
  { is_compressed := (b0 / 128) % 2 = 1
    is_infinity := (b0 / 64) % 2 = 1
    is_lexographically_largest := (b0 / 32) % 2 = 1 }

/-- `deserialise_fq`: rebuild the 384-bit big-endian value (the source fills
six 64-bit limbs from the 48 bytes, which is exactly the big-endian value of
the byte string) and `Fq::from_repr(..).unwrap()` — the `unwrap` aborts
whenever the value is not below the field modulus. -/
def deserialise_fq (bytes : List ℕ) : DecodeResult Fq :=
  let v := beBytesVal bytes
  if v < fqModulus then .ok (v : Fq) else .crashed

/-- Square root in `Fq` (`p ≡ 3 mod 4`, so `x^((p+1)/4)` when it exists), as
computed by arkworks' `sqrt`; `none` when `x` is not a square. -/
def fqSqrt (x : Fq) : Option Fq :=
  let candidate := x ^ ((fqModulus + 1) / 4)
  if candidate * candidate = x then some candidate else none

/-- `G1Affine::get_point_from_x(x, greatest)`: solve `y² = x³ + 4` and pick
the root selected by the sign flag (comparison on canonical representatives). -/
def get_point_from_x (x : Fq) (greatest : Bool) : Option (Fq × Fq) :=
  match fqSqrt (x ^ 3 + 4) with
  | none => none
  | some y =>
    let negy := -y
    some (x, if (decide (y.val < negy.val)).xor greatest then y else negy)

/-- Mask the three flag bits out of the first byte (`tmp[0] &= 0b0001_1111`). -/
def maskFlagBits : List ℕ → List ℕ
  | [] => []
  | b :: rest => b % 32 :: rest

/-- `deserialize_g1` from `interop_point_encoding.rs` (lines 51–74): read the
flags, return infinity if flagged, otherwise parse x (aborting inside
`deserialise_fq` when `x ≥ p`) and `get_point_from_x(..).unwrap()` (aborting
when no y exists).  Uncompressed inputs hit `unimplemented!`. -/
def deserialize_g1 (bytes : List ℕ) : DecodeResult G1AffinePoint :=
  let flags := getFlags bytes
  if !flags.is_compressed then .crashed
  else if flags.is_infinity then .ok none
  else
    match deserialise_fq (maskFlagBits bytes) with
    | .crashed => .crashed
    | .ok x =>
      match get_point_from_x x flags.is_lexographically_largest with
      | none => .crashed
      | some pt => .ok (some pt)

/-! ## The ceremony transcript (`sdk/transcript.rs`) -/

/-- The four fixed ceremony parameter sets (`CEREMONIES` in `sdk/mod.rs`). -/
def CEREMONIES : List Parameters :=
  [⟨4096, 65⟩, ⟨8192, 65⟩, ⟨16384, 65⟩, ⟨32768, 65⟩]

/-- `Transcript`: the fixed bundle of four SRSs. -/
structure Transcript where
  srs0 : SRS
  srs1 : SRS
  srs2 : SRS
  srs3 : SRS
  deriving DecidableEq

/-- The dimension check at the head of `update_transcript`: every sub-SRS's
element counts must match `CEREMONIES`. -/
def Transcript.dimsOk (t : Transcript) : Bool :=
  t.srs0.tau_g1.length == 4096 && t.srs0.tau_g2.length == 65 &&
  (t.srs1.tau_g1.length == 8192 && t.srs1.tau_g2.length == 65) &&
  (t.srs2.tau_g1.length == 16384 && t.srs2.tau_g2.length == 65) &&
  (t.srs3.tau_g1.length == 32768 && t.srs3.tau_g2.length == 65)

/-- One secret string to a private key: require the `0x` prefix, hex-decode
the remainder to bytes, then `PrivateKey::from_bytes` (big-endian mod `r`). -/
def parseSecret (secret_hex : List Char) : Option Fr :=
  match secret_hex with
  | '0' :: 'x' :: stripped =>
    match hexDecodeBytes stripped with
    | some bytes => some (from_be_bytes_mod_order bytes)
    | none => none
  | _ => none

/-- `update_transcript` from `sdk/transcript.rs` (lines 31–62): check all four
dimensions, then in order parse each secret and update the matching SRS,
failing to `none` on any malformed secret. -/
def update_transcript (t : Transcript) (secrets : List Char × List Char × List Char × List Char) :
    Option (Transcript × (UpdateProof × UpdateProof × UpdateProof × UpdateProof)) :=
  if !t.dimsOk then none
  else
    match parseSecret secrets.1 with
    | none => none
    | some k0 =>
      let u0 := t.srs0.update k0
      match parseSecret secrets.2.1 with
      | none => none
      | some k1 =>
        let u1 := t.srs1.update k1
        match parseSecret secrets.2.2.1 with
        | none => none
        | some k2 =>
          let u2 := t.srs2.update k2
          match parseSecret secrets.2.2.2 with
          | none => none
          | some k3 =>
            let u3 := t.srs3.update k3
            some (⟨u0.1, u1.1, u2.1, u3.1⟩, (u0.2, u1.2, u2.2, u3.2))

/-! ## Concrete fixtures used by witness theorems -/

/-- A fresh SRS with parameters `(2, 2)`. -/
def freshSRS2 : SRS := ⟨[g1, g1], [g2, g2]⟩

/-- A fresh transcript with the fixed ceremony dimensions. -/
def freshTranscript : Transcript :=
  ⟨⟨List.replicate 4096 g1, List.replicate 65 g2⟩,
   ⟨List.replicate 8192 g1, List.replicate 65 g2⟩,
   ⟨List.replicate 16384 g1, List.replicate 65 g2⟩,
   ⟨List.replicate 32768 g1, List.replicate 65 g2⟩⟩

/-- The secret string `"0x01"`. -/
def secretHex01 : List Char := ['0', 'x', '0', '1']

/-! ## Helper lemmas -/

theorem vandemonde_length (x : Fr) : ∀ n : ℕ, (vandemonde_challenge x n).length = n
  | 0 => rfl
  | n + 1 => by simp [vandemonde_challenge, vandemonde_length x n]

theorem vandemonde_getElem? (x : Fr) :
    ∀ n k : ℕ, k < n → (vandemonde_challenge x n)[k]? = some (x ^ (k + 1)) := by
  intro n
  induction n with
  | zero => omega
  | succ n ih =>
    intro k hk
    cases k with
    | zero => simp [vandemonde_challenge]
    | succ k =>
      have hkn : k < n := by omega
      simp [vandemonde_challenge, List.getElem?_map, ih k hkn, pow_succ]

theorem update_srs_tau_g1_length (s : SRS) (τ : Fr) :
    (s.update_srs τ).tau_g1.length = s.tau_g1.length := by
  unfold SRS.update_srs
  cases h : s.tau_g1 with
  | nil => simp
  | cons a t =>
    simp only [List.length_cons, List.length_zipWith, vandemonde_length]
    have : t.length ≤ max (t.length + 1) s.tau_g2.length - 1 := by omega
    omega

theorem update_srs_tau_g2_length (s : SRS) (τ : Fr) :
    (s.update_srs τ).tau_g2.length = s.tau_g2.length := by
  unfold SRS.update_srs
  cases h : s.tau_g2 with
  | nil => simp
  | cons a t =>
    simp only [List.length_cons, List.length_zipWith, vandemonde_length]
    have : t.length ≤ max s.tau_g1.length (t.length + 1) - 1 := by omega
    omega

theorem update_srs_tau_g1_getElem? (s : SRS) (τ : Fr) (i : ℕ) :
    (s.update_srs τ).tau_g1[i]? =
      if i = 0 then s.tau_g1[0]? else (s.tau_g1[i]?).map (fun g => τ ^ i * g) := by
  unfold SRS.update_srs
  cases hg : s.tau_g1 with
  | nil => cases i <;> simp
  | cons a t =>
    cases i with
    | zero => simp
    | succ j =>
      simp only [List.getElem?_cons_succ, if_neg (Nat.succ_ne_zero j)]
      rw [List.getElem?_zipWith]
      by_cases hj : j < t.length
      · have hmax : j < max (t.length + 1) s.tau_g2.length - 1 := by omega
        rw [vandemonde_getElem? τ _ j (by simp only [vandemonde_length, List.length_cons]; omega)]
        obtain ⟨g, hgj⟩ : ∃ g, t[j]? = some g := ⟨t.get ⟨j, hj⟩, List.getElem?_eq_getElem hj⟩
        simp [hgj, smul, mul_comm]
      · have h1 : t[j]? = none := List.getElem?_eq_none (by omega)
        simp [h1]

theorem update_srs_tau_g2_getElem? (s : SRS) (τ : Fr) (j : ℕ) :
    (s.update_srs τ).tau_g2[j]? =
      if j = 0 then s.tau_g2[0]? else (s.tau_g2[j]?).map (fun g => τ ^ j * g) := by
  unfold SRS.update_srs
  cases hg : s.tau_g2 with
  | nil => cases j <;> simp
  | cons a t =>
    cases j with
    | zero => simp
    | succ i =>
      simp only [List.getElem?_cons_succ, if_neg (Nat.succ_ne_zero i)]
      rw [List.getElem?_zipWith]
      by_cases hi : i < t.length
      · have hmax : i < max s.tau_g1.length (t.length + 1) - 1 := by omega
        rw [vandemonde_getElem? τ _ i (by simp only [vandemonde_length, List.length_cons]; omega)]
        obtain ⟨g, hgi⟩ : ∃ g, t[i]? = some g := ⟨t.get ⟨i, hi⟩, List.getElem?_eq_getElem hi⟩
        simp [hgi, smul, mul_comm]
      · have h1 : t[i]? = none := List.getElem?_eq_none (by omega)
        simp [h1]

theorem SRS.new_eq_some (n m : ℕ) (hn : 2 ≤ n) (hm : 2 ≤ m) :
    SRS.new ⟨n, m⟩ = some ⟨List.replicate n g1, List.replicate m g2⟩ := by
  unfold SRS.new SRS.from_vectors
  simp only [List.length_replicate]
  have h1 : (decide (n > 1) && decide (m > 1)) = true := by
    simp only [Bool.and_eq_true, decide_eq_true_eq]; omega
  simp [h1]

theorem update_update_srs_eq (s : SRS) (τ₁ τ₂ : Fr) :
    ((s.update τ₁).1.update τ₂).1 = (s.update (τ₁ * τ₂)).1 := by
  show (s.update_srs τ₁).update_srs τ₂ = s.update_srs (τ₁ * τ₂)
  ext1
  · apply List.ext_getElem?
    intro i
    by_cases h0 : i = 0
    · subst h0
      rw [update_srs_tau_g1_getElem? _ τ₂ 0, if_pos rfl, update_srs_tau_g1_getElem? _ τ₁ 0,
        if_pos rfl, update_srs_tau_g1_getElem? _ _ 0, if_pos rfl]
    · rw [update_srs_tau_g1_getElem? _ τ₂ i, if_neg h0, update_srs_tau_g1_getElem? _ τ₁ i,
        if_neg h0, update_srs_tau_g1_getElem? _ _ i, if_neg h0, Option.map_map]
      cases hx : s.tau_g1[i]? with
      | none => rfl
      | some g => exact congrArg some (by show τ₂ ^ i * (τ₁ ^ i * g) = _; rw [mul_pow]; ring)
  · apply List.ext_getElem?
    intro j
    by_cases h0 : j = 0
    · subst h0
      rw [update_srs_tau_g2_getElem? _ τ₂ 0, if_pos rfl, update_srs_tau_g2_getElem? _ τ₁ 0,
        if_pos rfl, update_srs_tau_g2_getElem? _ _ 0, if_pos rfl]
    · rw [update_srs_tau_g2_getElem? _ τ₂ j, if_neg h0, update_srs_tau_g2_getElem? _ τ₁ j,
        if_neg h0, update_srs_tau_g2_getElem? _ _ j, if_neg h0, Option.map_map]
      cases hx : s.tau_g2[j]? with
      | none => rfl
      | some g => exact congrArg some (by show τ₂ ^ j * (τ₁ ^ j * g) = _; rw [mul_pow]; ring)

theorem multi_scalar_mul_map_mul (L : List (ZMod r)) (c : ZMod r) :
    ∀ scalars : List Fr,
      multi_scalar_mul (L.map (· * c)) scalars = multi_scalar_mul L scalars * c := by
  induction L with
  | nil => intro scalars; simp [multi_scalar_mul]
  | cons a L ih =>
    intro scalars
    cases scalars with
    | nil => simp [multi_scalar_mul]
    | cons s ss =>
      have h1 := ih ss
      unfold multi_scalar_mul at h1 ⊢
      simp only [List.map_cons, List.zipWith_cons_cons, List.sum_cons, smul] at h1 ⊢
      rw [h1]
      ring

theorem windowsTwo_mem {α : Type} :
    ∀ (l : List α) (p : α × α), p ∈ windowsTwo l →
      ∃ k, l[k]? = some p.1 ∧ l[k + 1]? = some p.2 := by
  intro l
  induction l with
  | nil => intro p hp; simp [windowsTwo] at hp
  | cons a t ih =>
    cases t with
    | nil => intro p hp; simp [windowsTwo] at hp
    | cons b t2 =>
      intro p hp
      rw [windowsTwo] at hp
      rcases List.mem_cons.mp hp with h | h
      · refine ⟨0, ?_, ?_⟩ <;> simp [h]
      · obtain ⟨k, e1, e2⟩ := ih p h
        exact ⟨k + 1, by simpa using e1, by simpa using e2⟩

theorem powers_drop_eq_take_map (c : ZMod r) (τ : Fr) (n : ℕ) :
    (((List.range n).map (fun i => τ ^ i * c)).drop 1)
      = ((((List.range n).map (fun i => τ ^ i * c))).take
          (((List.range n).map (fun i => τ ^ i * c)).length - 1)).map (· * τ) := by
  cases n with
  | zero => simp
  | succ k =>
    have hr : List.range (k + 1) = 0 :: (List.range k).map Nat.succ :=
      List.range_succ_eq_map k
    have hlen : ((List.range (k + 1)).map (fun i => τ ^ i * c)).length = k + 1 := by simp
    rw [hlen]
    have htake : ((List.range (k + 1)).map (fun i => τ ^ i * c)).take (k + 1 - 1)
        = (List.range k).map (fun i => τ ^ i * c) := by
      rw [← List.map_take]
      have : (List.range (k + 1)).take (k + 1 - 1) = List.range k := by
        rw [List.take_range]
        simp
      rw [this]
    rw [htake, hr]
    simp only [List.map_cons, List.drop_succ_cons, List.drop_zero, List.map_map]
    apply List.map_congr_left
    intro i _
    simp only [Function.comp_apply]
    rw [Nat.succ_eq_add_one, pow_succ]
    ring

theorem powers_getD_zero (c : ZMod r) (τ : Fr) (n : ℕ) (hn : 1 ≤ n) :
    ((List.range n).map (fun i => τ ^ i * c)).getD 0 0 = c := by
  cases n with
  | zero => omega
  | succ k =>
    rw [List.range_succ_eq_map k]
    simp

theorem powers_getD_one (c : ZMod r) (τ : Fr) (n : ℕ) (hn : 2 ≤ n) :
    ((List.range n).map (fun i => τ ^ i * c)).getD 1 0 = τ * c := by
  cases n with
  | zero => omega
  | succ k =>
    cases k with
    | zero => omega
    | succ k2 =>
      rw [List.range_succ_eq_map (k2 + 1), List.range_succ_eq_map k2]
      simp [mul_comm]

theorem toHexPad_length : ∀ (k v : ℕ), (toHexPad k v).length = k
  | 0, _ => rfl
  | k + 1, v => by simp [toHexPad, toHexPad_length k (v / 16)]

theorem hexCharVal_hexDigitChar (d : ℕ) (hd : d < 16) :
    hexCharVal (hexDigitChar d) = some d := by
  have h : ∀ e, e < 16 → hexCharVal (hexDigitChar e) = some e := by decide
  exact h d hd

theorem hexValAux_append (l1 : List Char) :
    ∀ (acc : ℕ) (l2 : List Char), hexValAux acc (l1 ++ l2) =
      match hexValAux acc l1 with
      | none => none
      | some a => hexValAux a l2 := by
  induction l1 with
  | nil => intro acc l2; rfl
  | cons c t ih =>
    intro acc l2
    have lhs : hexValAux acc (c :: (t ++ l2)) =
        match hexCharVal c with
        | none => none
        | some d => hexValAux (16 * acc + d) (t ++ l2) := rfl
    have rhs : hexValAux acc (c :: t) =
        match hexCharVal c with
        | none => none
        | some d => hexValAux (16 * acc + d) t := rfl
    show hexValAux acc (c :: (t ++ l2)) = _
    rw [lhs, rhs]
    cases hc : hexCharVal c with
    | none => rfl
    | some d => exact ih (16 * acc + d) l2

theorem hexValAux_single (acc d : ℕ) (hd : d < 16) :
    hexValAux acc [hexDigitChar d] = some (16 * acc + d) := by
  show (match hexCharVal (hexDigitChar d) with
        | none => none
        | some e => hexValAux (16 * acc + e) []) = some (16 * acc + d)
  rw [hexCharVal_hexDigitChar d hd]
  rfl

theorem hexValAux_toHexPad :
    ∀ (k v acc : ℕ), hexValAux acc (toHexPad k v) = some (acc * 16 ^ k + v % 16 ^ k) := by
  intro k
  induction k with
  | zero => intro v acc; simp [toHexPad, hexValAux, Nat.mod_one]
  | succ k ih =>
    intro v acc
    rw [toHexPad, hexValAux_append, ih (v / 16) acc]
    show hexValAux (acc * 16 ^ k + v / 16 % 16 ^ k) [hexDigitChar (v % 16)] = _
    rw [hexValAux_single _ _ (Nat.mod_lt v (by omega))]
    congr 1
    have hms : v % 16 ^ (k + 1) = 16 * (v / 16 % 16 ^ k) + v % 16 := by
      conv_lhs => rw [pow_succ']
      rw [Nat.mod_mul]
      ring
    rw [hms, pow_succ]
    ring

theorem hexVal_toHexPad (k v : ℕ) (h : v < 16 ^ k) : hexVal (toHexPad k v) = some v := by
  unfold hexVal
  rw [hexValAux_toHexPad k v 0, Nat.mod_eq_of_lt h]
  simp

theorem hex_string_to_g1_roundtrip (p : G1) :
    hex_string_to_g1 (withPrefix0x (serialize_g1_hex p)) = some p := by
  show deserialize_g1_hex (serialize_g1_hex p) = some p
  unfold deserialize_g1_hex serialize_g1_hex
  rw [if_pos (toHexPad_length 96 p.val)]
  have hval : p.val < 16 ^ 96 := lt_trans (ZMod.val_lt p) (by norm_num [r])
  rw [hexVal_toHexPad 96 p.val hval]
  show (if p.val < r then some ((p.val : ℕ) : ZMod r) else none) = some p
  rw [if_pos (ZMod.val_lt p)]
  exact congrArg some (ZMod.natCast_rightInverse p)

theorem hex_string_to_g2_roundtrip (p : G2) :
    hex_string_to_g2 (withPrefix0x (serialize_g2_hex p)) = some p := by
  show deserialize_g2_hex (serialize_g2_hex p) = some p
  unfold deserialize_g2_hex serialize_g2_hex
  rw [if_pos (toHexPad_length 192 p.val)]
  have hval : p.val < 16 ^ 192 := lt_trans (ZMod.val_lt p) (by norm_num [r])
  rw [hexVal_toHexPad 192 p.val hval]
  show (if p.val < r then some ((p.val : ℕ) : ZMod r) else none) = some p
  rw [if_pos (ZMod.val_lt p)]
  exact congrArg some (ZMod.natCast_rightInverse p)

theorem decodePoints_roundtrip {α : Type} (decode : List Char → Option α)
    (enc : α → List Char) (henc : ∀ p, decode (enc p) = some p) :
    ∀ l : List α, decodePoints decode (l.map enc) = some l := by
  intro l
  induction l with
  | nil => rfl
  | cons p t ih =>
    show decodePoints decode (enc p :: t.map enc) = some (p :: t)
    rw [decodePoints, henc p, ih]

/-! ## Claim theorems -/

/-- C2: after a single `update(τ)` of a fresh SRS with parameters `(n, m)`,
`n, m ≥ 2`, every `tau_g1[i]` is `τ^i · g1` and every `tau_g2[j]` is
`τ^j · g2`, and the returned update proof is `(P, Q) = (τ·g2, tau_g1[1])`. -/
theorem C2_update_fresh_power_structure (τ : Fr) (n m : ℕ) (hn : 2 ≤ n) (hm : 2 ≤ m)
    (s₀ : SRS) (h : SRS.new ⟨n, m⟩ = some s₀) :
    (∀ i, i < n → ((s₀.update τ).1.tau_g1)[i]? = some (τ ^ i * g1)) ∧
    (∀ j, j < m → ((s₀.update τ).1.tau_g2)[j]? = some (τ ^ j * g2)) ∧
    (s₀.update τ).2.commitment_to_secret = τ * g2 ∧
    (s₀.update τ).2.new_accumulated_point = ((s₀.update τ).1.tau_g1).getD 1 0 := by
  rw [SRS.new_eq_some n m hn hm] at h
  have hs : s₀ = ⟨List.replicate n g1, List.replicate m g2⟩ := (Option.some.inj h).symm
  subst hs
  refine ⟨?_, ?_, rfl, rfl⟩
  · intro i hi
    show ((SRS.update_srs _ τ).tau_g1)[i]? = _
    rw [update_srs_tau_g1_getElem?]
    by_cases h0 : i = 0
    · subst h0
      simp [List.getElem?_replicate, if_pos (by omega : 0 < n)]
    · simp only [if_neg h0]
      simp [List.getElem?_replicate, if_pos hi]
  · intro j hj
    show ((SRS.update_srs _ τ).tau_g2)[j]? = _
    rw [update_srs_tau_g2_getElem?]
    by_cases h0 : j = 0
    · subst h0
      simp [List.getElem?_replicate, if_pos (by omega : 0 < m)]
    · simp only [if_neg h0]
      simp [List.getElem?_replicate, if_pos hj]

/-- Witness for C2 at `τ = 3`, `(n, m) = (2, 2)`. -/
theorem C2_update_fresh_power_structure_witness :
    ((2:ℕ) ≤ 2 ∧ SRS.new ⟨2, 2⟩ = some freshSRS2) ∧
    ((∀ i, i < 2 → ((freshSRS2.update 3).1.tau_g1)[i]? = some ((3:Fr) ^ i * g1)) ∧
     (∀ j, j < 2 → ((freshSRS2.update 3).1.tau_g2)[j]? = some ((3:Fr) ^ j * g2)) ∧
     (freshSRS2.update 3).2.commitment_to_secret = 3 * g2 ∧
     (freshSRS2.update 3).2.new_accumulated_point = ((freshSRS2.update 3).1.tau_g1).getD 1 0) :=
  ⟨⟨le_refl 2, by rfl⟩,
   C2_update_fresh_power_structure 3 2 2 (le_refl 2) (le_refl 2) freshSRS2 (by rfl)⟩

/-- C5: the degree-0 elements are never mutated: after any finite sequence of
updates of a fresh SRS, `tau_g1[0]` is still `g1` and `tau_g2[0]` still `g2`. -/
theorem C5_generators_never_mutated (n m : ℕ) (hn : 2 ≤ n) (hm : 2 ≤ m)
    (s₀ : SRS) (h : SRS.new ⟨n, m⟩ = some s₀) (keys : List Fr) :
    ((s₀.applyUpdates keys).tau_g1)[0]? = some g1 ∧
    ((s₀.applyUpdates keys).tau_g2)[0]? = some g2 := by
  have head : ∀ (ks : List Fr) (s : SRS),
      ((s.applyUpdates ks).tau_g1)[0]? = s.tau_g1[0]? ∧
      ((s.applyUpdates ks).tau_g2)[0]? = s.tau_g2[0]? := by
    intro ks
    induction ks with
    | nil => intro s; exact ⟨rfl, rfl⟩
    | cons k ks ih =>
      intro s
      have h1 := ih (s.update k).1
      have e1 : ((s.update k).1.tau_g1)[0]? = s.tau_g1[0]? := by
        show ((s.update_srs k).tau_g1)[0]? = _
        rw [update_srs_tau_g1_getElem?]; simp
      have e2 : ((s.update k).1.tau_g2)[0]? = s.tau_g2[0]? := by
        show ((s.update_srs k).tau_g2)[0]? = _
        rw [update_srs_tau_g2_getElem?]; simp
      refine ⟨?_, ?_⟩
      · calc ((s.applyUpdates (k :: ks)).tau_g1)[0]?
            = (((s.update k).1.applyUpdates ks).tau_g1)[0]? := rfl
          _ = ((s.update k).1.tau_g1)[0]? := h1.1
          _ = s.tau_g1[0]? := e1
      · calc ((s.applyUpdates (k :: ks)).tau_g2)[0]?
            = (((s.update k).1.applyUpdates ks).tau_g2)[0]? := rfl
          _ = ((s.update k).1.tau_g2)[0]? := h1.2
          _ = s.tau_g2[0]? := e2
  rw [SRS.new_eq_some n m hn hm] at h
  have hs : s₀ = ⟨List.replicate n g1, List.replicate m g2⟩ := (Option.some.inj h).symm
  subst hs
  refine ⟨?_, ?_⟩
  · rw [(head keys _).1]
    simp [List.getElem?_replicate, if_pos (by omega : 0 < n)]
  · rw [(head keys _).2]
    simp [List.getElem?_replicate, if_pos (by omega : 0 < m)]

/-- Witness for C5 at `(n, m) = (2, 2)` with two updates `[3, 5]`. -/
theorem C5_generators_never_mutated_witness :
    ((2:ℕ) ≤ 2 ∧ SRS.new ⟨2, 2⟩ = some freshSRS2) ∧
    ((freshSRS2.applyUpdates [3, 5]).tau_g1)[0]? = some g1 ∧
    ((freshSRS2.applyUpdates [3, 5]).tau_g2)[0]? = some g2 :=
  ⟨⟨le_refl 2, by rfl⟩,
   C5_generators_never_mutated 2 2 (le_refl 2) (le_refl 2) freshSRS2 (by rfl) [3, 5]⟩

/-- C7: updating a fresh SRS with `τ₁` and then `τ₂` yields exactly the same
SRS as the single update with `τ₁·τ₂`. -/
theorem C7_update_composition (τ₁ τ₂ : Fr) (n m : ℕ) (hn : 2 ≤ n) (hm : 2 ≤ m)
    (s₀ : SRS) (h : SRS.new ⟨n, m⟩ = some s₀) :
    ((s₀.update τ₁).1.update τ₂).1 = (s₀.update (τ₁ * τ₂)).1 :=
  update_update_srs_eq s₀ τ₁ τ₂

/-- Witness for C7 at `τ₁ = 3`, `τ₂ = 5`, `(n, m) = (2, 2)`. -/
theorem C7_update_composition_witness :
    ((2:ℕ) ≤ 2 ∧ SRS.new ⟨2, 2⟩ = some freshSRS2) ∧
    ((freshSRS2.update 3).1.update 5).1 = (freshSRS2.update (3 * 5)).1 :=
  ⟨⟨le_refl 2, by rfl⟩,
   C7_update_composition 3 5 2 2 (le_refl 2) (le_refl 2) freshSRS2 (by rfl)⟩

/-- C9: `verify_updates` reads the starting SRS only through its degree-1 G1
element: two starting SRSs agreeing there verify identically. -/
theorem C9_verify_updates_only_reads_before_deg1 (b₁ b₂ after : SRS)
    (proofs : List UpdateProof) (ρ : Fr)
    (h : b₁.tau_g1.getD 1 0 = b₂.tau_g1.getD 1 0) :
    SRS.verify_updates b₁ after proofs ρ = SRS.verify_updates b₂ after proofs ρ := by
  unfold SRS.verify_updates
  rw [h]

/-- Witness for C9: two starting SRSs that differ everywhere except at the
degree-1 G1 element. -/
theorem C9_verify_updates_only_reads_before_deg1_witness :
    (SRS.mk [0, 7, 5] [0, 0] ).tau_g1.getD 1 0 = (SRS.mk [g1, 7] [g2, 3]).tau_g1.getD 1 0 ∧
    SRS.verify_updates (SRS.mk [0, 7, 5] [0, 0]) freshSRS2 [⟨2, 2⟩] 3 =
      SRS.verify_updates (SRS.mk [g1, 7] [g2, 3]) freshSRS2 [⟨2, 2⟩] 3 :=
  ⟨by rfl,
   C9_verify_updates_only_reads_before_deg1 (SRS.mk [0, 7, 5] [0, 0]) (SRS.mk [g1, 7] [g2, 3])
     freshSRS2 [⟨2, 2⟩] 3 (by rfl)⟩

/-- C4: on a valid SRS (successive powers of a single nonzero τ applied to the
canonical generators) and for any nonzero challenge ρ, the batched
single-pairing check `structure_check_opt` returns the same boolean as the
pairwise `structure_check`. -/
theorem C4_batched_eq_pairwise_structure_check (τ ρ : Fr) (n m : ℕ)
    (hn : 2 ≤ n) (hm : 2 ≤ m) (hτ : τ ≠ 0) (hρ : ρ ≠ 0) (s : SRS)
    (h1 : s.tau_g1 = (List.range n).map (fun i => τ ^ i * g1))
    (h2 : s.tau_g2 = (List.range m).map (fun j => τ ^ j * g2)) :
    s.structure_check_opt ρ = s.structure_check := by
  have hg20 : s.tau_g2.getD 0 0 = g2 := by
    rw [h2]; exact powers_getD_zero g2 τ m (by omega)
  have hg21 : s.tau_g2.getD 1 0 = τ * g2 := by
    rw [h2]; exact powers_getD_one g2 τ m hm
  have hg10 : s.tau_g1.getD 0 0 = g1 := by
    rw [h1]; exact powers_getD_zero g1 τ n (by omega)
  have hg11 : s.tau_g1.getD 1 0 = τ * g1 := by
    rw [h1]; exact powers_getD_one g1 τ n hn
  have hdrop1 : s.tau_g1.drop 1 = (s.tau_g1.take (s.tau_g1.length - 1)).map (· * τ) := by
    rw [h1]; exact powers_drop_eq_take_map g1 τ n
  have hdrop2 : s.tau_g2.drop 1 = (s.tau_g2.take (s.tau_g2.length - 1)).map (· * τ) := by
    rw [h2]; exact powers_drop_eq_take_map g2 τ m
  have key1 : pairing
      (multi_scalar_mul (s.tau_g1.take (s.tau_g1.length - 1))
        (vandemonde_challenge ρ (max s.tau_g1.length s.tau_g2.length - 1)))
      (s.tau_g2.getD 1 0)
      = pairing
      (multi_scalar_mul (s.tau_g1.drop 1)
        (vandemonde_challenge ρ (max s.tau_g1.length s.tau_g2.length - 1)))
      (s.tau_g2.getD 0 0) := by
    rw [hdrop1, multi_scalar_mul_map_mul, hg20, hg21]
    unfold pairing g2
    ring
  have key2 : pairing (s.tau_g1.getD 1 0)
      (multi_scalar_mul (s.tau_g2.take (s.tau_g2.length - 1))
        (vandemonde_challenge ρ (max s.tau_g1.length s.tau_g2.length - 1)))
      = pairing (s.tau_g1.getD 0 0)
      (multi_scalar_mul (s.tau_g2.drop 1)
        (vandemonde_challenge ρ (max s.tau_g1.length s.tau_g2.length - 1))) := by
    rw [hdrop2, multi_scalar_mul_map_mul, hg10, hg11]
    unfold pairing g1
    ring
  have hopt : s.structure_check_opt ρ = true := by
    simp only [SRS.structure_check_opt, if_neg hρ]
    have hc1 : ¬(pairing
        (multi_scalar_mul (s.tau_g1.take (s.tau_g1.length - 1))
          (vandemonde_challenge ρ (max s.tau_g1.length s.tau_g2.length - 1)))
        (s.tau_g2.getD 1 0)
        ≠ pairing
        (multi_scalar_mul (s.tau_g1.drop 1)
          (vandemonde_challenge ρ (max s.tau_g1.length s.tau_g2.length - 1)))
        (s.tau_g2.getD 0 0)) := fun hne => hne key1
    rw [if_neg hc1, decide_eq_true_eq]
    exact key2
  have hpair : s.structure_check = true := by
    simp only [SRS.structure_check, Bool.and_eq_true, List.all_eq_true, decide_eq_true_eq]
    constructor
    · intro pair hp
      obtain ⟨k, e1, e2⟩ := windowsTwo_mem _ pair hp
      rw [h1, List.getElem?_map] at e1 e2
      by_cases hk : k + 1 < n
      · have hkI : (List.range n)[k]? = some k := List.getElem?_range (by omega)
        have hk1I : (List.range n)[k + 1]? = some (k + 1) := List.getElem?_range hk
        rw [hkI] at e1
        rw [hk1I] at e2
        have p1v : pair.1 = τ ^ k * g1 := by simpa using e1.symm
        have p2v : pair.2 = τ ^ (k + 1) * g1 := by simpa using e2.symm
        rw [p1v, p2v, hg20, hg21]
        unfold pairing g1 g2
        rw [pow_succ]
        ring
      · have : (List.range n)[k + 1]? = none :=
          List.getElem?_eq_none (by simpa using (by omega : n ≤ k + 1))
        rw [this] at e2
        simp at e2
    · intro pair hp
      obtain ⟨k, e1, e2⟩ := windowsTwo_mem _ pair hp
      rw [h2, List.getElem?_map] at e1 e2
      by_cases hk : k + 1 < m
      · have hkI : (List.range m)[k]? = some k := List.getElem?_range (by omega)
        have hk1I : (List.range m)[k + 1]? = some (k + 1) := List.getElem?_range hk
        rw [hkI] at e1
        rw [hk1I] at e2
        have p1v : pair.1 = τ ^ k * g2 := by simpa using e1.symm
        have p2v : pair.2 = τ ^ (k + 1) * g2 := by simpa using e2.symm
        rw [p1v, p2v, hg10, hg11]
        unfold pairing g1 g2
        rw [pow_succ]
        ring
      · have : (List.range m)[k + 1]? = none :=
          List.getElem?_eq_none (by simpa using (by omega : m ≤ k + 1))
        rw [this] at e2
        simp at e2
  rw [hopt, hpair]

/-- Witness for C4 on the valid SRS of powers of `τ = 2` with `(n, m) = (2, 2)`
and challenge `ρ = 3`. -/
theorem C4_batched_eq_pairwise_structure_check_witness :
    ((2 : Fr) ≠ 0 ∧ (3 : Fr) ≠ 0 ∧
     (SRS.mk [1, 2] [1, 2]).tau_g1 = (List.range 2).map (fun i => (2 : Fr) ^ i * g1) ∧
     (SRS.mk [1, 2] [1, 2]).tau_g2 = (List.range 2).map (fun j => (2 : Fr) ^ j * g2)) ∧
    (SRS.mk [1, 2] [1, 2]).structure_check_opt 3 = (SRS.mk [1, 2] [1, 2]).structure_check :=
  ⟨⟨by decide, by decide, by decide, by decide⟩,
   C4_batched_eq_pairwise_structure_check 2 3 2 2 (le_refl 2) (le_refl 2)
     (by decide) (by decide) (SRS.mk [1, 2] [1, 2]) (by decide) (by decide)⟩

/-- C1: `verify_updates(before, after, proofs, r)` returns true iff the proof
list is nonempty, `after.tau_g1[1]` equals the last proof's `Q`, the
update-proof chain starting from `before.tau_g1[1]` verifies, `after.tau_g1[1]`
and `after.tau_g2[1]` are both nonzero, and the batched structure check of
`after` with challenge `r` passes. -/
theorem C1_verify_updates_iff (before after : SRS) (proofs : List UpdateProof) (ρ : Fr)
    (hb1 : 1 < before.tau_g1.length) (hb2 : 1 < before.tau_g2.length)
    (ha1 : 1 < after.tau_g1.length) (ha2 : 1 < after.tau_g2.length) :
    SRS.verify_updates before after proofs ρ = true ↔
      (proofs ≠ [] ∧
       after.tau_g1.getD 1 0 = (proofs.getLastD ⟨0, 0⟩).new_accumulated_point ∧
       UpdateProof.verify_chain (before.tau_g1.getD 1 0) proofs = true ∧
       after.tau_g1.getD 1 0 ≠ 0 ∧
       after.tau_g2.getD 1 0 ≠ 0 ∧
       SRS.structure_check_opt after ρ = true) := by
  cases hlast : proofs.getLast? with
  | none =>
    have hnil : proofs = [] := List.getLast?_eq_none_iff.mp hlast
    subst hnil
    simp [SRS.verify_updates]
  | some lastp =>
    have hne : proofs ≠ [] := by
      intro he
      subst he
      simp at hlast
    have hD : proofs.getLastD ⟨0, 0⟩ = lastp := by
      rw [List.getLastD_eq_getLast?, hlast]
      rfl
    have hred : SRS.verify_updates before after proofs ρ =
        (if after.tau_g1.getD 1 0 ≠ lastp.new_accumulated_point then false
         else if !UpdateProof.verify_chain (before.tau_g1.getD 1 0) proofs then false
         else if after.tau_g1.getD 1 0 = 0 then false
         else if after.tau_g2.getD 1 0 = 0 then false
         else SRS.structure_check_opt after ρ) := by
      unfold SRS.verify_updates
      rw [hlast]
    rw [hred, hD]
    constructor
    · intro hv
      split_ifs at hv with h1 h2 h3 h4
      exact ⟨hne, by simpa using h1, by simpa using h2, h3, h4, hv⟩
    · rintro ⟨-, he, hc, h3, h4, hopt⟩
      rw [if_neg (by simpa using he), if_neg (by rw [hc]; decide), if_neg h3, if_neg h4]
      exact hopt

/-- Witness for C1 on small two-element SRSs. -/
theorem C1_verify_updates_iff_witness :
    (1 < (SRS.mk [g1, 7] [g2, 3]).tau_g1.length ∧ 1 < (SRS.mk [g1, 7] [g2, 3]).tau_g2.length ∧
     1 < freshSRS2.tau_g1.length ∧ 1 < freshSRS2.tau_g2.length) ∧
    (SRS.verify_updates (SRS.mk [g1, 7] [g2, 3]) freshSRS2 [⟨2, 2⟩] 3 = true ↔
      ([(⟨2, 2⟩ : UpdateProof)] ≠ [] ∧
       freshSRS2.tau_g1.getD 1 0 = ([(⟨2, 2⟩ : UpdateProof)].getLastD ⟨0, 0⟩).new_accumulated_point ∧
       UpdateProof.verify_chain ((SRS.mk [g1, 7] [g2, 3]).tau_g1.getD 1 0) [⟨2, 2⟩] = true ∧
       freshSRS2.tau_g1.getD 1 0 ≠ 0 ∧
       freshSRS2.tau_g2.getD 1 0 ≠ 0 ∧
       SRS.structure_check_opt freshSRS2 3 = true)) :=
  ⟨⟨by decide, by decide, by decide, by decide⟩,
   C1_verify_updates_iff (SRS.mk [g1, 7] [g2, 3]) freshSRS2 [⟨2, 2⟩] 3
     (by decide) (by decide) (by decide) (by decide)⟩

/-- C6: for `n, m ≥ 2`, serialising the SRS obtained by one update of a fresh
SRS and deserialising the hex arrays with the same parameters returns exactly
the same SRS (serialisation never fails; the round trip is the identity). -/
theorem C6_serialise_deserialise_roundtrip (τ : Fr) (n m : ℕ) (hn : 2 ≤ n) (hm : 2 ≤ m)
    (s₀ : SRS) (h : SRS.new ⟨n, m⟩ = some s₀) :
    SRS.deserialise ((s₀.update τ).1.serialise) ⟨n, m⟩ = some (s₀.update τ).1 := by
  rw [SRS.new_eq_some n m hn hm] at h
  have hs : s₀ = ⟨List.replicate n g1, List.replicate m g2⟩ := (Option.some.inj h).symm
  have hl1 : (s₀.update τ).1.tau_g1.length = n := by
    show (s₀.update_srs τ).tau_g1.length = n
    rw [update_srs_tau_g1_length, hs]
    simp
  have hl2 : (s₀.update τ).1.tau_g2.length = m := by
    show (s₀.update_srs τ).tau_g2.length = m
    rw [update_srs_tau_g2_length, hs]
    simp
  unfold SRS.deserialise SRS.serialise SRS.to_json_array SRS.from_json_array
  rw [decodePoints_roundtrip hex_string_to_g1 _ hex_string_to_g1_roundtrip (s₀.update τ).1.tau_g1,
      decodePoints_roundtrip hex_string_to_g2 _ hex_string_to_g2_roundtrip (s₀.update τ).1.tau_g2]
  show (if (s₀.update τ).1.tau_g1.length ≠ n then none
        else if (s₀.update τ).1.tau_g2.length ≠ m then none
        else some (SRS.mk (s₀.update τ).1.tau_g1 (s₀.update τ).1.tau_g2)) = some (s₀.update τ).1
  rw [if_neg (by rw [hl1]; simp), if_neg (by rw [hl2]; simp)]

/-- Witness for C6 at `τ = 3`, `(n, m) = (2, 2)`. -/
theorem C6_serialise_deserialise_roundtrip_witness :
    ((2:ℕ) ≤ 2 ∧ SRS.new ⟨2, 2⟩ = some freshSRS2) ∧
    SRS.deserialise ((freshSRS2.update 3).1.serialise) ⟨2, 2⟩ = some (freshSRS2.update 3).1 :=
  ⟨⟨le_refl 2, by rfl⟩,
   C6_serialise_deserialise_roundtrip 3 2 2 (le_refl 2) (le_refl 2) freshSRS2 (by rfl)⟩

/-- C10: `deserialise` builds the SRS struct directly and never applies the
`> 1` length check of `from_vectors`: arrays of well-formed point strings of
any lengths `n`, `m` — including `n < 2` or `m < 2` — deserialise to `some`
SRS holding exactly those points, while `from_vectors` would reject such
vectors. -/
theorem C10_deserialise_no_min_length_check (ps : List G1) (qs : List G2) (n m : ℕ)
    (hp : ps.length = n) (hq : qs.length = m) :
    SRS.deserialise
        (ps.map (fun p => withPrefix0x (serialize_g1_hex p)),
         qs.map (fun q => withPrefix0x (serialize_g2_hex q))) ⟨n, m⟩ = some ⟨ps, qs⟩ ∧
    ((n ≤ 1 ∨ m ≤ 1) → SRS.from_vectors ps qs = none) := by
  constructor
  · unfold SRS.deserialise SRS.from_json_array
    rw [decodePoints_roundtrip hex_string_to_g1 _ hex_string_to_g1_roundtrip ps,
        decodePoints_roundtrip hex_string_to_g2 _ hex_string_to_g2_roundtrip qs]
    show (if ps.length ≠ n then none
          else if qs.length ≠ m then none
          else some (SRS.mk ps qs)) = some (SRS.mk ps qs)
    rw [if_neg (by rw [hp]; simp), if_neg (by rw [hq]; simp)]
  · intro hle
    have hcond : (decide (ps.length > 1) && decide (qs.length > 1)) = false := by
      rcases hle with hx | hx
      · have hnp : ¬(ps.length > 1) := by omega
        simp [hnp]
      · have hnq : ¬(qs.length > 1) := by omega
        simp [hnq]
    unfold SRS.from_vectors
    simp [hcond]

/-- Witness for C10 with a one-element G1 array (`n = 1 < 2`). -/
theorem C10_deserialise_no_min_length_check_witness :
    (([g1] : List G1).length = 1 ∧ ([g2, 5] : List G2).length = 2) ∧
    (SRS.deserialise
        (([g1] : List G1).map (fun p => withPrefix0x (serialize_g1_hex p)),
         ([g2, 5] : List G2).map (fun q => withPrefix0x (serialize_g2_hex q))) ⟨1, 2⟩
      = some ⟨[g1], [g2, 5]⟩ ∧
     ((1:ℕ) ≤ 1 ∨ (2:ℕ) ≤ 1 → SRS.from_vectors [g1] [g2, 5] = none)) :=
  ⟨⟨rfl, rfl⟩,
   C10_deserialise_no_min_length_check [g1] [g2, 5] 1 2 rfl rfl⟩

/-- C8: `update_transcript` returns `none` exactly when some sub-SRS's element
counts differ from the fixed ceremony parameters or some secret string lacks
the `0x` prefix or is not valid hex (`parseSecret` fails); otherwise it returns
the four updated SRSs and the four update proofs, each secret decoded by
`parseSecret` (big-endian bytes reduced modulo `r`). -/
theorem C8_update_transcript_characterization (t : Transcript) (s0 s1 s2 s3 : List Char) :
    (update_transcript t (s0, s1, s2, s3) = none ↔
      t.dimsOk = false ∨ parseSecret s0 = none ∨ parseSecret s1 = none ∨
      parseSecret s2 = none ∨ parseSecret s3 = none) ∧
    (∀ k0 k1 k2 k3 : Fr, t.dimsOk = true →
      parseSecret s0 = some k0 → parseSecret s1 = some k1 →
      parseSecret s2 = some k2 → parseSecret s3 = some k3 →
      update_transcript t (s0, s1, s2, s3) =
        some (⟨(t.srs0.update k0).1, (t.srs1.update k1).1,
               (t.srs2.update k2).1, (t.srs3.update k3).1⟩,
              ((t.srs0.update k0).2, (t.srs1.update k1).2,
               (t.srs2.update k2).2, (t.srs3.update k3).2))) := by
  constructor
  · by_cases hd : t.dimsOk = true
    · cases h0 : parseSecret s0 <;> cases h1 : parseSecret s1 <;>
        cases h2 : parseSecret s2 <;> cases h3 : parseSecret s3 <;>
        simp [update_transcript, hd, h0, h1, h2, h3]
    · have hd2 : t.dimsOk = false := by
        revert hd
        cases t.dimsOk <;> simp
      simp [update_transcript, hd2]
  · intro k0 k1 k2 k3 hd h0 h1 h2 h3
    simp [update_transcript, hd, h0, h1, h2, h3]

/-- Witness for C8: the well-dimensioned fresh transcript with all four
secrets `"0x01"`. -/
theorem C8_update_transcript_characterization_witness :
    (freshTranscript.dimsOk = true ∧
     parseSecret secretHex01 = some (from_be_bytes_mod_order [1])) ∧
    update_transcript freshTranscript (secretHex01, secretHex01, secretHex01, secretHex01) =
      some (⟨(freshTranscript.srs0.update (from_be_bytes_mod_order [1])).1,
             (freshTranscript.srs1.update (from_be_bytes_mod_order [1])).1,
             (freshTranscript.srs2.update (from_be_bytes_mod_order [1])).1,
             (freshTranscript.srs3.update (from_be_bytes_mod_order [1])).1⟩,
            ((freshTranscript.srs0.update (from_be_bytes_mod_order [1])).2,
             (freshTranscript.srs1.update (from_be_bytes_mod_order [1])).2,
             (freshTranscript.srs2.update (from_be_bytes_mod_order [1])).2,
             (freshTranscript.srs3.update (from_be_bytes_mod_order [1])).2)) :=
  have hd : freshTranscript.dimsOk = true := by
    simp only [Transcript.dimsOk, freshTranscript, List.length_replicate]
    rfl
  have hp : parseSecret secretHex01 = some (from_be_bytes_mod_order [1]) := by rfl
  ⟨⟨hd, hp⟩,
   (C8_update_transcript_characterization freshTranscript
       secretHex01 secretHex01 secretHex01 secretHex01).2
     (from_be_bytes_mod_order [1]) (from_be_bytes_mod_order [1])
     (from_be_bytes_mod_order [1]) (from_be_bytes_mod_order [1]) hd hp hp hp hp⟩

/-- C3 exhibit: the decoder present in `interop_point_encoding.rs` does not
return an absent result on malformed input.  On a compressed non-infinity
input whose x field is `2^381 - 1 ≥ p` it aborts (the `unwrap` inside
`deserialise_fq`), and on an infinity-flagged input with nonzero x bits it
silently returns the identity instead of failing. -/
theorem C3_deserialize_g1_aborts_on_bad_input :
    deserialize_g1 (159 :: List.replicate 47 255) = DecodeResult.crashed ∧
    deserialize_g1 (192 :: 1 :: List.replicate 46 0) = DecodeResult.ok none := by
  constructor
  · rfl
  · rfl

end PowersOfTau
